import Mathlib

/-!
# Verification of the `ethvalidator` coordinator (`coordinator.go`)

A shallow embedding of the coordinator-side coordination engine:
the message ingress queue (`MessageProcessingQueue`), the client manager
event loop (`ClientManager.Run`), the signature-gathering loop
(`gatherSignatures`), and the three round drivers (`createVMImpl`,
`initiateUnanimousAssertionImpl`, `_initiateUnanimousAssertionImpl`).

External collaborators (the Bot, the signing key, the hash functions) are
modelled as environment fields: a round driver is a pure function of an
environment record that carries the values those collaborators would have
produced on the round's channels.  Machine integers are `Nat` with explicit
bounds where overflow matters (`MAX_U64`, the `uint32 → uint8` truncation).
Go panics (out-of-range indexing) are modelled by `Option`, a Go send on a
nil channel (the zero value of a map lookup at a missing key) by an explicit
`blocked` outcome.
-/

namespace Arbi

/-- Validator addresses (opaque 20-byte values in the source). -/
abbrev Address := Nat

/-- 32-byte hashes / digests (opaque). -/
abbrev Hash := Nat

/-- Source: `math.MaxUint64`, the finalization sentinel for unanimous rounds. -/
def MAX_U64 : Nat := 2 ^ 64 - 1

/-- A wire signature (`*Signature` protobuf): `R`, `S` hashes and a
`uint32` recovery field `V`. -/
structure RawSignature where
  r : Hash
  s : Hash
  v : Nat
  deriving Repr, DecidableEq

/-- Source: `valmessage.Signature`: `R`, `S` hashes and a `uint8` recovery field. -/
structure ValSignature where
  r : Hash
  s : Hash
  v : Nat
  deriving Repr, DecidableEq

/-- The conversion performed when a follower's wire signature is stored in
the assembled vector: `valmessage.Signature{NewHashFromBuf(R),
NewHashFromBuf(S), uint8(V)}`.  The `uint32 → uint8` cast truncates. -/
def valSigOfRaw (x : RawSignature) : ValSignature :=
  ⟨x.r, x.s, x.v % 256⟩

/-- The reverse conversion on the unanimous success path:
`&Signature{R: NewHashBuf(sig.R), S: NewHashBuf(sig.S), V: uint32(sig.V)}`
(a `uint8` embeds into `uint32` without truncation). -/
def rawOfValSig (x : ValSignature) : RawSignature :=
  ⟨x.r, x.s, x.v⟩

/-- The zero value of `valmessage.Signature` (Go `make` zero-initializes). -/
def zeroValSig : ValSignature := ⟨0, 0, 0⟩

/-! ## Message ingress queue (`MessageProcessingQueue`)

The queue owner runs a loop over one untyped request channel
(`MessageProcessingQueue.run`); the four request kinds become a closed
inductive.  The queue state is the `queuedMessages` slice. -/

/-- Source: `OffchainMessage`: an application payload and its originator's
signature. -/
structure OffchainMessage where
  message : Nat
  signature : Nat
  deriving Repr, DecidableEq

/-- The four request kinds multiplexed over `m.requests`. -/
inductive QueueRequest where
  /-- Source: `Fetch()`: a `chan []OffchainMessage` request. -/
  | fetch : QueueRequest
  /-- Source: `Return(batch)`: a `[]OffchainMessage` request. -/
  | ret (batch : List OffchainMessage) : QueueRequest
  /-- Source: `Send(m)`: an `OffchainMessage` request. -/
  | send (m : OffchainMessage) : QueueRequest
  /-- Source: `HasMessages()`: a `chan bool` request. -/
  | has : QueueRequest
  deriving Repr, DecidableEq

/-- A reply emitted on a request's return channel. -/
inductive QueueReply where
  | batch (b : List OffchainMessage) : QueueReply
  | hasMsgs (b : Bool) : QueueReply
  deriving Repr, DecidableEq

/-- One iteration of the `MessageProcessingQueue.run` loop: the switch on
the request type.  `fetch` replies with the whole contents and sets the
slice to `nil`; `ret` prepends (`append(request, m.queuedMessages...)`);
`send` appends at the tail; `has` replies `len > 0`. -/
def queueStep (q : List OffchainMessage) : QueueRequest → List OffchainMessage × Option QueueReply
  | .fetch => ([], some (.batch q))
  | .ret batch => (batch ++ q, none)
  | .send m => (q ++ [m], none)
  | .has => (q, some (.hasMsgs (decide (0 < q.length))))

/-- The queue loop over a list of requests (arrival order on the channel),
returning the final contents and the replies in order. -/
def runQueue (q : List OffchainMessage) : List QueueRequest → List OffchainMessage × List QueueReply
  | [] => (q, [])
  | r :: rs =>
    let step := queueStep q r
    let rest := runQueue step.1 rs
    (rest.1, step.2.toList ++ rest.2)

/-! ## Client manager event loop (`ClientManager.Run`)

The loop owns the live-client set, the waiting set and the pending-round
map `responses : map[[32]byte]chan LabeledFollowerResponse`.  Clients and
sinks are identified by opaque `Nat` ids; the Go map is an association
list whose most recent insertion wins on lookup (Go map assignment
overwrites).  The six select cases become an event inductive; a `broadcast`
event carries, as an environment oracle, the set of clients whose bounded
outbound buffer is currently full (the `select`/`default` eviction). -/

/-- An event arriving on one of the loop's channels. -/
inductive CMEvent where
  /-- A waiter arriving on `waitRequestChan`. -/
  | waitRequest (w : Nat) : CMEvent
  /-- A labeled follower response on the aggregate channel; it carries the
  response's `RequestId` and the opaque response payload. -/
  | aggResponse (requestId : Hash) (resp : Nat) : CMEvent
  /-- A `GatherSignatureRequest` on `sigRequestChan`. -/
  | sigRequest (request : Nat) (sink : Nat) (requestId : Hash) : CMEvent
  /-- A client arriving on `register`. -/
  | register (c : Nat) : CMEvent
  /-- A client arriving on `unregister`. -/
  | unregister (c : Nat) : CMEvent
  /-- A message arriving on `broadcast`; `fullClients` is the oracle for
  which clients' `ToClient` buffers are full at this instant. -/
  | broadcast (msg : Nat) (fullClients : List Nat) : CMEvent
  deriving Repr, DecidableEq

/-- An observable side effect of one loop iteration. -/
inductive CMEffect where
  /-- Source: `waitRequest <- true` or `waitChan <- true`. -/
  | signalWaiter (w : Nat) : CMEffect
  /-- A labeled response sent into a registered sink. -/
  | deliver (sink : Nat) (resp : Nat) : CMEffect
  /-- Source: `m.broadcast <- request.request` (queued for a later loop iteration). -/
  | broadcastEnqueued (request : Nat) : CMEffect
  /-- Source: `client.ToClient <- message` succeeded. -/
  | sendTo (c : Nat) (msg : Nat) : CMEffect
  /-- Source: `close(client.ToClient)`. -/
  | closeClient (c : Nat) : CMEffect
  deriving Repr, DecidableEq

/-- The state owned by `ClientManager.Run`.  `nValidators` is
`len(m.validators)` (immutable). -/
structure CMState where
  nValidators : Nat
  clients : List Nat
  waitingChans : List Nat
  responses : List (Hash × Nat)
  deriving Repr, DecidableEq

/-- The outcome of one loop iteration. -/
inductive CMStep where
  /-- The iteration finished; the loop proceeds to the next event. -/
  | next (s : CMState) (effects : List CMEffect) : CMStep
  /-- The iteration blocked forever (a send on a nil channel): the loop
  never reaches another event. -/
  | blocked : CMStep
  deriving Repr, DecidableEq

/-- The `register` case's client-set update: `m.clients[client] = true`
(a set insertion; re-registering an already-present client is a no-op on
the set). -/
def registerClients (clients : List Nat) (c : Nat) : List Nat :=
  if c ∈ clients then clients else c :: clients

/-- One iteration of the `ClientManager.Run` select loop.

The `aggResponse` case is `m.responses[NewHashFromBuf(r.RequestId)] <- r`:
in Go, indexing a map at a missing key yields the zero value of the value
type, here a nil `chan`, and a send on a nil channel blocks forever — hence
`.blocked` when the request id is not registered. -/
def cmStep (s : CMState) : CMEvent → CMStep
  | .waitRequest w =>
    if s.clients.length = s.nValidators - 1 then .next s [.signalWaiter w]
    else .next { s with waitingChans := w :: s.waitingChans } []
  | .aggResponse requestId resp =>
    match s.responses.lookup requestId with
    | some sink => .next s [.deliver sink resp]
    | none => .blocked
  | .sigRequest request sink requestId =>
    .next { s with responses := (requestId, sink) :: s.responses }
      [.broadcastEnqueued request]
  | .register c =>
    let clients' := registerClients s.clients c
    if clients'.length = s.nValidators - 1 then
      .next { s with clients := clients', waitingChans := [] }
        (s.waitingChans.map .signalWaiter)
    else .next { s with clients := clients' } []
  | .unregister c =>
    if c ∈ s.clients then
      .next { s with clients := s.clients.filter (· ≠ c) } [.closeClient c]
    else .next s []
  | .broadcast msg full =>
    .next { s with clients := s.clients.filter (· ∉ full) }
      (s.clients.map fun c => if c ∈ full then .closeClient c else .sendTo c msg)

/-- The loop over a list of events; `none` when an iteration blocked
forever before exhausting the events. -/
def runCM (s : CMState) : List CMEvent → Option CMState
  | [] => some s
  | e :: es =>
    match cmStep s e with
    | .next s' _ => runCM s' es
    | .blocked => none

/-! ## Signature gathering (`ClientManager.gatherSignatures`)

The loop selects between the per-round response channel and a single-shot
20-second timer; it breaks as soon as `len(responseList) ==
len(m.validators)-1` or the timer has fired.  The select's arrivals are an
external schedule, modelled as a list of events consumed in order; the
payload type is a parameter because the same loop serves create and
unanimous rounds. -/

/-- One arrival in the `gatherSignatures` select. -/
inductive GatherEvent (α : Type) where
  /-- A labeled follower response on `responseChan`. -/
  | response (r : α) : GatherEvent α
  /-- The 20-second timer fired (`<-timer.C`). -/
  | timerFire : GatherEvent α
  deriving Repr, DecidableEq

/-- The responses carried by a schedule, in order. -/
def responsesOf {α : Type} : List (GatherEvent α) → List α
  | [] => []
  | .response r :: es => r :: responsesOf es
  | .timerFire :: es => responsesOf es

/-- The `gatherSignatures` collection loop.  `quota` is
`len(m.validators)-1`.  After consuming an event the loop checks
`len(responseList) == quota || timedOut` and breaks when it holds.
`none` models the loop still blocked in its select when the schedule runs
out (in the program the timer guarantees an eventual event). -/
def gatherLoop {α : Type} (quota : Nat) (acc : List α) :
    List (GatherEvent α) → Option (List α)
  | [] => none
  | .response r :: rest =>
    let acc' := acc ++ [r]
    if acc'.length = quota then some acc' else gatherLoop quota acc' rest
  | .timerFire :: _ => some acc

/-! ## Assembled signature vectors

Both round drivers build their vector by `make([]valmessage.Signature, N)`
followed by index assignments.  `setAll` is the bulk-assignment shape the
response loops reduce to on an all-accepting response list. -/

/-- Left-to-right index assignments into a slice. -/
def setAll {α : Type} (l : List α) (ps : List (Nat × α)) : List α :=
  ps.foldl (fun acc p => acc.set p.1 p.2) l

/-! ## Create VM round (`createVMImpl`)

External collaborators appear as environment fields: `gotAll` is the value
of `WaitForFollowers(timeout)`, `sign` is `m.Val.Sign`, `createVMHash` is
the digest function, `responses` is what `gatherSignatures` returned,
`createVMResult` the error of `m.Val.CreateVM`.  The outcome records the
returned value together with the observable broadcasts and Bot calls. -/

/-- A follower's create response (`FollowerResponse_Create`).  The Go type
assertion `response.response.Response.(*FollowerResponse_Create)` is
reflected by typing the list. -/
structure CreateResponse where
  address : Address
  accepted : Bool
  signature : RawSignature
  deriving Repr, DecidableEq

structure CreateEnv where
  /-- Source: `m.Val.ValidatorCount()` (= N). -/
  n : Nat
  /-- Source: `m.Val.Address()`. -/
  coordAddr : Address
  /-- Source: `m.Val.Validators[addr].indexNum`. -/
  indexOf : Address → Nat
  /-- The value of `m.cm.WaitForFollowers(timeout)`. -/
  gotAll : Bool
  /-- Source: `stateData.Config` (opaque). -/
  stateConfig : Nat
  /-- Source: `m.Val.VmId`. -/
  vmId : Hash
  /-- Source: `stateData.MachineState`. -/
  machineState : Hash
  /-- Source: `CreateVMHash(createData)` as a function of (config, vmId, vmState,
  challengeManagerNum). -/
  createVMHash : Nat → Hash → Hash → Nat → Hash
  /-- Source: `m.Val.Sign`. -/
  sign : Hash → Except String ValSignature
  /-- What `m.cm.gatherSignatures(request, createHash)` returned. -/
  responses : List CreateResponse
  /-- The error of `m.Val.CreateVM(createData, signatures)`. -/
  createVMResult : Except String Unit

/-- The observable outcome of one `createVMImpl` call. -/
structure CreateOutcome where
  /-- The `(bool, error)` return, collapsed the way the caller does
  (an error wins over the bool). -/
  result : Except String Bool
  /-- Whether `m.Val.Bot.RequestVMState()` was consulted. -/
  requestedVMState : Bool
  /-- Whether the `CreateVMValidatorRequest` was broadcast (via
  `gatherSignatures`'s `sigRequestChan` dispatch). -/
  sigRequestSent : Bool
  /-- The `Approved` fields of the `CreateVMFinalizedValidatorNotification`
  broadcasts, in order. -/
  notifications : List Bool
  /-- The signature vector passed to `m.Val.CreateVM`, when it was called. -/
  createVMCall : Option (List ValSignature)
  deriving Repr

/-- The response loop of `createVMImpl` (lines 540-550): abort on the
first `!r.Accepted`, otherwise store the converted signature at the
responder's validator index. -/
def createLoop (indexOf : Address → Nat) (sigs : List ValSignature) :
    List CreateResponse → Except String (List ValSignature)
  | [] => .ok sigs
  | r :: rest =>
    if !r.accepted then .error "some Validators refused to sign"
    else createLoop indexOf (sigs.set (indexOf r.address) (valSigOfRaw r.signature)) rest

/-- Source: `createVMImpl`. -/
def createVMImpl (env : CreateEnv) : CreateOutcome :=
  if !env.gotAll then
    { result := .error "coordinator can only create VM when connected to all other validators",
      requestedVMState := false, sigRequestSent := false,
      notifications := [], createVMCall := none }
  else
    let createHash := env.createVMHash env.stateConfig env.vmId env.machineState 0
    if env.responses.length ≠ env.n - 1 then
      { result := .error "some Validators didn't respond",
        requestedVMState := true, sigRequestSent := true,
        notifications := [false], createVMCall := none }
    else
      match env.sign createHash with
      | .error e =>
        { result := .error e, requestedVMState := true, sigRequestSent := true,
          notifications := [], createVMCall := none }
      | .ok coordSig =>
        let sigs0 := (List.replicate env.n zeroValSig).set (env.indexOf env.coordAddr) coordSig
        match createLoop env.indexOf sigs0 env.responses with
        | .error e =>
          { result := .error e, requestedVMState := true, sigRequestSent := true,
            notifications := [], createVMCall := none }
        | .ok sigs =>
          { result := match env.createVMResult with
              | .ok _ => .ok true
              | .error e => .error e,
            requestedVMState := true, sigRequestSent := true,
            notifications := [], createVMCall := some sigs }

/-! ## Unanimous assertion round
(`_initiateUnanimousAssertionImpl` and its caller
`initiateUnanimousAssertionImpl`)

The Bot's three channels, the hash functions, the signer, the gathered
responses and the confirm/close outcomes are environment fields, holding
the values the collaborators would have produced.  A Go slice-index panic
is `none`. -/

/-- Source: `valmessage.UnanimousRequest`: the canonical round payload returned on
the Bot's request channel (messages plus the `UnanimousRequestData` the
confirm call later receives). -/
structure UnanRequestData where
  newMessages : List Nat
  beforeHash : Hash
  beforeInbox : Hash
  sequenceNum : Nat
  timeBounds : Nat
  deriving Repr, DecidableEq

/-- A `*SignedMessage` record of the broadcast unanimous request. -/
structure SignedMessage where
  message : Nat
  signature : Nat
  deriving Repr, DecidableEq

/-- Source: `protocol.Assertion` (only `OutMsgs` is inspected by the coordinator;
the rest is opaque). -/
structure Assertion where
  afterHash : Hash
  outMsgs : List Nat
  rest : Nat
  deriving Repr, DecidableEq

/-- Source: `valmessage.UnanimousUpdateResults`: the Bot's proposed post-state. -/
structure UnanUpdateResults where
  sequenceNum : Nat
  beforeHash : Hash
  timeBounds : Nat
  newInboxHash : Hash
  originalInboxHash : Hash
  assertion : Assertion
  deriving Repr, DecidableEq

/-- A follower's unanimous response (`FollowerResponse_Unanimous`). -/
structure UnanResponse where
  address : Address
  accepted : Bool
  assertionHash : Hash
  signature : RawSignature
  deriving Repr, DecidableEq

/-- A `UnanimousAssertionValidatorNotification` broadcast: `Accepted` and
the raw signature vector (`[]*Signature`, whose zero value is nil —
hence `Option`). -/
structure UnanNotification where
  accepted : Bool
  signatures : List (Option RawSignature)
  deriving Repr, DecidableEq

structure UnanEnv where
  /-- Source: `m.Val.ValidatorCount()` (= N). -/
  n : Nat
  /-- Source: `m.Val.Address()`. -/
  coordAddr : Address
  /-- Source: `m.Val.Validators[addr].indexNum`. -/
  indexOf : Address → Nat
  /-- The first value on `requestChan`/`unanErrChan` from
  `Bot.InitiateUnanimousRequest`. -/
  botInitiate : Except String UnanRequestData
  /-- Source: `unanRequest.Hash()`. -/
  requestHash : UnanRequestData → Hash
  /-- The value on `resultsChan`/`unanErrChan`. -/
  botResults : Except String UnanUpdateResults
  /-- Source: `m.Val.UnanimousAssertHash(seq, beforeHash, timeBounds, newInboxHash,
  originalInboxHash, assertion)`. -/
  unanimousAssertHash : Nat → Hash → Nat → Hash → Hash → Assertion → Except String Hash
  /-- Source: `m.Val.Sign`. -/
  sign : Hash → Except String ValSignature
  /-- What the parallel `gatherSignatures` call delivered on
  `responsesChan`. -/
  gatherResponses : List UnanResponse
  /-- The outcome of `Bot.ConfirmOffchainUnanimousAssertion`. -/
  confirmResult : Except String Unit
  /-- The value of `<-Bot.CloseUnanimousAssertionRequest()`. -/
  closeResult : Bool

/-- The observable outcome of one `_initiateUnanimousAssertionImpl` call. -/
structure UnanOutcome where
  /-- The `(isFinal, error)` return. -/
  result : Except String Bool
  /-- Whether the `UnanimousAssertionValidatorRequest` was dispatched to
  the followers (the spawned `gatherSignatures` goroutine). -/
  sigRequestSent : Bool
  /-- The `UnanimousAssertionValidatorNotification` broadcasts, in order. -/
  notifications : List UnanNotification
  /-- The `(requestData, signatures)` passed to
  `Bot.ConfirmOffchainUnanimousAssertion`, when it was called. -/
  confirmCall : Option (UnanRequestData × List ValSignature)
  /-- The digest the coordinator signed and compared against, once
  computed. -/
  hashUsed : Option Hash
  /-- The sequence number used for that digest (after the
  out-messages override), once computed. -/
  seqUsed : Option Nat
  deriving Repr

/-- The signed-messages build (lines 612-617):
`for i, msg := range unanRequest.NewMessages` pairs `msg` with
`queuedMessages[i].Signature`; there is no bounds check, so `i ≥
len(queuedMessages)` is a Go index-out-of-range panic (`none`). -/
def buildRequestMessagesAux (queued : List OffchainMessage) :
    List Nat → Nat → Option (List SignedMessage)
  | [], _ => some []
  | msg :: restMsgs, i =>
    match queued.get? i with
    | none => none
    | some q =>
      match buildRequestMessagesAux queued restMsgs (i + 1) with
      | none => none
      | some tl => some (⟨msg, q.signature⟩ :: tl)

def buildRequestMessages (newMessages : List Nat) (queued : List OffchainMessage) :
    Option (List SignedMessage) :=
  buildRequestMessagesAux queued newMessages 0

/-- The finalization override (lines 656-659): force an on-chain
assertion when there are outgoing messages. -/
def forceFinalSeq (u : UnanUpdateResults) : UnanUpdateResults :=
  if 0 < u.assertion.outMsgs.length then { u with sequenceNum := MAX_U64 } else u

/-- The response-validation loop (lines 702-722): abort on the first
`!r.Accepted`, then on the first `AssertionHash ≠ unanHash`, otherwise
store the raw and converted signatures at the responder's index. -/
def unanLoop (indexOf : Address → Nat) (unanHash : Hash) :
    List ValSignature → List (Option RawSignature) → List UnanResponse →
    Except String (List ValSignature × List (Option RawSignature))
  | sigs, raws, [] => .ok (sigs, raws)
  | sigs, raws, r :: restRs =>
    if !r.accepted then .error "some Validators refused to sign"
    else if r.assertionHash ≠ unanHash then .error "some Validators signed the wrong assertion"
    else unanLoop indexOf unanHash
      (sigs.set (indexOf r.address) (valSigOfRaw r.signature))
      (raws.set (indexOf r.address) (some r.signature)) restRs

/-- Source: `_initiateUnanimousAssertionImpl` on an environment and the drained
batch.  `none` is a Go panic in the signed-messages build. -/
def unanImpl (env : UnanEnv) (queuedMessages : List OffchainMessage) : Option UnanOutcome :=
  match env.botInitiate with
  | .error e =>
    some { result := .error e, sigRequestSent := false, notifications := [],
           confirmCall := none, hashUsed := none, seqUsed := none }
  | .ok unanRequest =>
    match buildRequestMessages unanRequest.newMessages queuedMessages with
    | none => none
    | some _requestMessages =>
      -- `hashId := unanRequest.Hash()`; the spawned goroutine dispatches
      -- the gather, broadcasting the request keyed by `hashId`.
      match env.botResults with
      | .error e =>
        some { result := .error e, sigRequestSent := true,
               notifications := [⟨false, []⟩],
               confirmCall := none, hashUsed := none, seqUsed := none }
      | .ok upd0 =>
        let upd := forceFinalSeq upd0
        match env.unanimousAssertHash upd.sequenceNum upd.beforeHash upd.timeBounds
            upd.newInboxHash upd.originalInboxHash upd.assertion with
        | .error e =>
          some { result := .error e, sigRequestSent := true,
                 notifications := [⟨false, []⟩],
                 confirmCall := none, hashUsed := none, seqUsed := some upd.sequenceNum }
        | .ok unanHash =>
          match env.sign unanHash with
          | .error e =>
            some { result := .error e, sigRequestSent := true,
                   notifications := [⟨false, []⟩],
                   confirmCall := none, hashUsed := some unanHash,
                   seqUsed := some upd.sequenceNum }
          | .ok sig =>
            if env.gatherResponses.length ≠ env.n - 1 then
              some { result := .error "some Validators didn't respond",
                     sigRequestSent := true, notifications := [⟨false, []⟩],
                     confirmCall := none, hashUsed := some unanHash,
                     seqUsed := some upd.sequenceNum }
            else
              let coordIdx := env.indexOf env.coordAddr
              let sigs0 := (List.replicate env.n zeroValSig).set coordIdx sig
              let raws0 := (List.replicate env.n (none : Option RawSignature)).set
                coordIdx (some (rawOfValSig sig))
              match unanLoop env.indexOf unanHash sigs0 raws0 env.gatherResponses with
              | .error e =>
                some { result := .error e, sigRequestSent := true,
                       notifications := [⟨false, []⟩],
                       confirmCall := none, hashUsed := some unanHash,
                       seqUsed := some upd.sequenceNum }
              | .ok (sigs, raws) =>
                match env.confirmResult with
                | .error e =>
                  some { result := .error e, sigRequestSent := true,
                         notifications := [⟨true, raws⟩],
                         confirmCall := some (unanRequest, sigs),
                         hashUsed := some unanHash, seqUsed := some upd.sequenceNum }
                | .ok _ =>
                  some { result := .ok (upd.sequenceNum == MAX_U64),
                         sigRequestSent := true, notifications := [⟨true, raws⟩],
                         confirmCall := some (unanRequest, sigs),
                         hashUsed := some unanHash, seqUsed := some upd.sequenceNum }

/-- The observable outcome of `initiateUnanimousAssertionImpl`. -/
structure UnanCallOutcome where
  /-- The `(bool, error)` return, collapsed the way the controller does. -/
  result : Except String Bool
  /-- The ingress-queue contents after the call (starting from `queue`). -/
  finalQueue : List OffchainMessage
  /-- Whether `Bot.CloseUnanimousAssertionRequest` was invoked. -/
  closeCalled : Bool
  /-- The inner round's outcome. -/
  inner : UnanOutcome
  deriving Repr

/-- Source: `initiateUnanimousAssertionImpl`: drain the queue (`<-m.mpq.Fetch()`),
run the round, and on error `m.mpq.Return(queuedMessages)`; on a final
round, close the channel and return the closure outcome. -/
def initiateUnanimousAssertionImpl (env : UnanEnv) (queue : List OffchainMessage) :
    Option UnanCallOutcome :=
  let queuedMessages := queue
  let clearedQueue := (queueStep queue .fetch).1
  match unanImpl env queuedMessages with
  | none => none
  | some out =>
    match out.result with
    | .error e =>
      some { result := .error e,
             finalQueue := (queueStep clearedQueue (.ret queuedMessages)).1,
             closeCalled := false, inner := out }
    | .ok isFinal =>
      if isFinal then
        some { result := .ok env.closeResult, finalQueue := clearedQueue,
               closeCalled := true, inner := out }
      else
        some { result := .ok true, finalQueue := clearedQueue,
               closeCalled := false, inner := out }

theorem runQueue_append (q : List OffchainMessage) (as bs : List QueueRequest) :
    (runQueue q (as ++ bs)).1 = (runQueue (runQueue q as).1 bs).1 := by
  induction as generalizing q with
  | nil => rfl
  | cons a as ih => simp [runQueue, ih]

theorem runQueue_sends (q : List OffchainMessage) (sends : List OffchainMessage) :
    (runQueue q (sends.map .send)).1 = q ++ sends := by
  induction sends generalizing q with
  | nil => simp [runQueue]
  | cons s ss ih => simp [runQueue, queueStep, ih]

theorem runQueue_sends_ret_fetch (q q0 sends : List OffchainMessage) :
    (runQueue q0 (sends.map .send ++ [.ret q, .fetch])).2 = [.batch (q ++ q0 ++ sends)] := by
  induction sends generalizing q0 with
  | nil => simp [runQueue, queueStep]
  | cons s ss ih =>
    simp only [List.map, List.cons_append, runQueue, queueStep, List.append_eq]
    rw [ih (q0 ++ [s])]
    simp

/-- C6. `Fetch` delivers the entire current contents and clears the
queue; `Send` appends at the tail; `Return` prepends the batch as a unit
preserving its order; hence a `Fetch` immediately followed (up to
interleaved `Send`s) by a `Return` of the fetched batch leaves the queue
holding the fetched batch ahead of the interleaved sends, and with no
interleaved sends the contents are exactly the pre-`Fetch` contents, as
any subsequent non-interleaved `Fetch` observes. -/
theorem queue_fetch_return_roundtrip (q sends : List OffchainMessage) :
    queueStep q .fetch = ([], some (.batch q)) ∧
    (∀ q0 m, queueStep q0 (.send m) = (q0 ++ [m], none)) ∧
    (∀ q0 b, queueStep q0 (.ret b) = (b ++ q0, none)) ∧
    (runQueue q ([QueueRequest.fetch] ++ sends.map .send ++ [.ret q])).1 = q ++ sends ∧
    (runQueue q [QueueRequest.fetch, .ret q]).1 = q ∧
    (runQueue q ([QueueRequest.fetch] ++ sends.map .send ++ [.ret q, .fetch])).2
      = [.batch q, .batch (q ++ sends)] := by
  refine ⟨rfl, fun q0 m => rfl, fun q0 b => rfl, ?_, ?_, ?_⟩
  · have h1 : [QueueRequest.fetch] ++ sends.map .send ++ [.ret q]
        = ([QueueRequest.fetch] ++ sends.map .send) ++ [QueueRequest.ret q] := by simp
    rw [h1, runQueue_append]
    have h2 : (runQueue q ([QueueRequest.fetch] ++ sends.map .send)).1 = sends := by
      have : [QueueRequest.fetch] ++ sends.map .send
          = [QueueRequest.fetch] ++ sends.map .send := rfl
      simp only [List.cons_append, List.nil_append, runQueue, queueStep]
      simpa using runQueue_sends [] sends
    rw [h2]
    simp [runQueue, queueStep]
  · simp [runQueue, queueStep]
  · simp only [List.cons_append, List.nil_append, runQueue, queueStep, List.append_eq]
    rw [runQueue_sends_ret_fetch q [] sends]
    simp

/-- C2. What the aggregate-response case actually does.  When the
response's request id is registered, the labeled response is forwarded to
exactly the one registered sink.  When it is not registered, the response
is NOT dropped: the map lookup yields a nil channel and the send blocks
the whole manager loop forever (the spec says the response is dropped
silently and the loop continues — the code disagrees). -/
theorem cm_unknown_digest_blocks_loop :
    cmStep ⟨3, [1, 2], [], []⟩ (.aggResponse 5 77) = .blocked ∧
    cmStep ⟨3, [1, 2], [], [(5, 9)]⟩ (.aggResponse 5 77)
      = .next ⟨3, [1, 2], [], [(5, 9)]⟩ [.deliver 9 77] ∧
    runCM ⟨3, [1, 2], [], []⟩ [.aggResponse 5 77, .waitRequest 0] = none :=
  ⟨rfl, rfl, rfl⟩

/-- C9 counterexample.  A round's entry survives the round's
completion.  Concretely (N = 3): a `SigRequest` registers digest 7 with
sink 4; the request is broadcast; both followers respond, i.e. the gather
loop receives its N−1 = 2 responses and the round completes; a further
event is processed — and the pending-round map still holds digest 7.  The
loop has no case that deletes from `m.responses`. -/
theorem cm_entry_survives_completed_round :
    runCM ⟨3, [1, 2], [], []⟩
      [.sigRequest 10 4 7, .broadcast 10 [], .aggResponse 7 100,
       .aggResponse 7 200, .waitRequest 0]
      = some ⟨3, [1, 2], [], [(7, 4)]⟩ := rfl

theorem cmStep_lookup_mono (s : CMState) (e : CMEvent) (s' : CMState)
    (fx : List CMEffect) (d : Hash) (k : Nat)
    (hstep : cmStep s e = .next s' fx) (hd : s.responses.lookup d = some k) :
    ∃ k', s'.responses.lookup d = some k' := by
  cases e <;> unfold cmStep at hstep <;> dsimp only at hstep
  case waitRequest w =>
    split at hstep <;> cases hstep <;> exact ⟨k, hd⟩
  case aggResponse requestId resp =>
    split at hstep
    · cases hstep; exact ⟨k, hd⟩
    · cases hstep
  case sigRequest request sink requestId =>
    cases hstep
    by_cases hdr : d = requestId
    · subst hdr
      exact ⟨sink, by simp [List.lookup]⟩
    · refine ⟨k, ?_⟩
      have hbeq : (d == requestId) = false := by simpa using hdr
      simpa [List.lookup, hbeq] using hd
  case register c =>
    split at hstep <;> cases hstep <;> exact ⟨k, hd⟩
  case unregister c =>
    split at hstep <;> cases hstep <;> exact ⟨k, hd⟩
  case broadcast msg full =>
    cases hstep
    exact ⟨k, hd⟩

/-- C9 (amended).  No event of the Client Manager loop ever removes an
entry from the pending-round map: once a digest is registered by a
`SigRequest`, every later state reached by the loop still maps that digest
to a sink (a re-registration of the same digest may replace the sink).
Completion or timeout of the round leaves the entry in place. -/
theorem cm_responses_never_removed (s : CMState) (es : List CMEvent)
    (s' : CMState) (d : Hash) (k : Nat)
    (hrun : runCM s es = some s') (hd : s.responses.lookup d = some k) :
    ∃ k', s'.responses.lookup d = some k' := by
  induction es generalizing s k with
  | nil =>
    simp only [runCM] at hrun
    cases hrun
    exact ⟨k, hd⟩
  | cons e es ih =>
    simp only [runCM] at hrun
    cases hstep : cmStep s e with
    | next s1 fx =>
      rw [hstep] at hrun
      obtain ⟨k1, hk1⟩ := cmStep_lookup_mono s e s1 fx d k hstep hd
      exact ih s1 k1 hrun hk1
    | blocked => rw [hstep] at hrun; cases hrun

/-- Witness for `cm_responses_never_removed` at a concrete trace. -/
theorem cm_responses_never_removed_witness :
    ∃ k', (CMState.mk 3 [1, 2] [] [(7, 4)]).responses.lookup 7 = some k' :=
  cm_responses_never_removed ⟨3, [1, 2], [], [(7, 4)]⟩
    [.aggResponse 7 100, .waitRequest 0] ⟨3, [1, 2], [], [(7, 4)]⟩
    7 4 rfl rfl

theorem gatherLoop_spec_aux {α : Type} (quota : Nat) (events : List (GatherEvent α)) :
    ∀ acc result : List α, acc.length < quota →
      gatherLoop quota acc events = some result →
      ∃ k, 0 < k ∧ k ≤ events.length ∧
        result = acc ++ responsesOf (events.take k) ∧
        ((result.length = quota ∧ GatherEvent.timerFire ∉ events.take k) ∨
         ((events.take k).getLast? = some .timerFire ∧
          GatherEvent.timerFire ∉ (events.take k).dropLast ∧
          result.length < quota)) := by
  induction events with
  | nil => intro acc result _ h; simp [gatherLoop] at h
  | cons e rest ih =>
    intro acc result hlen h
    cases e with
    | response r =>
      simp only [gatherLoop] at h
      by_cases hq : (acc ++ [r]).length = quota
      · rw [if_pos hq] at h
        cases h
        exact ⟨1, by simp, by simp, by simp [responsesOf], Or.inl ⟨hq, by simp⟩⟩
      · rw [if_neg hq] at h
        have hlt : (acc ++ [r]).length < quota := by
          simp only [List.length_append, List.length_cons, List.length_nil] at hq ⊢
          omega
        obtain ⟨k, hk0, hkle, hres, hcase⟩ := ih (acc ++ [r]) result hlt h
        refine ⟨k + 1, by omega, by simpa using Nat.succ_le_succ hkle, ?_, ?_⟩
        · simp [List.take, responsesOf, hres]
        · rcases hcase with ⟨h1, h2⟩ | ⟨h1, h2, h3⟩
          · exact Or.inl ⟨h1, by
              simp only [List.take, List.mem_cons] at *
              rintro (h | h) <;> simp_all⟩
          · refine Or.inr ⟨?_, ?_, h3⟩
            · have hne : (rest.take k) ≠ [] := by
                intro hnil
                rw [hnil] at h1
                simp at h1
              simp [List.take, List.getLast?_cons, h1, hne]
            · have hne : (rest.take k) ≠ [] := by
                intro hnil
                rw [hnil] at h1
                simp at h1
              rw [show ((GatherEvent.response r :: rest).take (k + 1)).dropLast
                    = .response r :: (rest.take k).dropLast by
                  simp [List.take, List.dropLast_cons_of_ne_nil hne]]
              simp only [List.mem_cons]
              rintro (h | h)
              · cases h
              · exact h2 h
    | timerFire =>
      simp only [gatherLoop] at h
      cases h
      exact ⟨1, by simp, by simp, by simp [responsesOf], Or.inr ⟨by simp, by simp, hlen⟩⟩

theorem setAll_cons {α : Type} (l : List α) (p : Nat × α) (ps : List (Nat × α)) :
    setAll l (p :: ps) = setAll (l.set p.1 p.2) ps := rfl

theorem setAll_length {α : Type} (l : List α) (ps : List (Nat × α)) :
    (setAll l ps).length = l.length := by
  induction ps generalizing l with
  | nil => rfl
  | cons p ps ih => rw [setAll_cons, ih, List.length_set]

theorem setAll_get_not_mem {α : Type} (l : List α) (ps : List (Nat × α)) (j : Nat)
    (hj : j ∉ ps.map Prod.fst) : (setAll l ps).get? j = l.get? j := by
  induction ps generalizing l with
  | nil => rfl
  | cons p ps ih =>
    simp only [List.map_cons, List.mem_cons] at hj
    push_neg at hj
    rw [setAll_cons, ih _ hj.2, List.get?_set_ne _ _ (Ne.symm hj.1)]

theorem setAll_get_mem {α : Type} (l : List α) (ps : List (Nat × α)) (p : Nat × α)
    (hnd : (ps.map Prod.fst).Nodup) (hp : p ∈ ps) (hlt : p.1 < l.length) :
    (setAll l ps).get? p.1 = some p.2 := by
  induction ps generalizing l with
  | nil => cases hp
  | cons q ps ih =>
    simp only [List.map_cons, List.nodup_cons] at hnd
    rcases List.mem_cons.mp hp with hpq | hp'
    · subst hpq
      rw [setAll_cons, setAll_get_not_mem _ _ _ hnd.1,
        List.get?_set_eq_of_lt _ hlt]
    · rw [setAll_cons]
      exact ih (l.set q.1 q.2) hnd.2 hp' (by simpa using hlt)

/-- C8.  When `WaitForFollowers(timeout)` returns false, `createVMImpl`
returns exactly the "coordinator can only create VM when connected to all
other validators" error, broadcasts nothing (no request, no notification)
and never consults the Bot. -/
theorem create_requires_all_connected (env : CreateEnv) (h : env.gotAll = false) :
    createVMImpl env =
      { result := .error "coordinator can only create VM when connected to all other validators",
        requestedVMState := false, sigRequestSent := false,
        notifications := [], createVMCall := none } := by
  simp [createVMImpl, h]

/-- Witness for `create_requires_all_connected`. -/
theorem create_requires_all_connected_witness :
    createVMImpl ⟨3, 0, id, false, 0, 1, 2, fun _ _ _ _ => 9,
        fun _ => .ok ⟨1, 2, 3⟩, [], .ok ()⟩ =
      { result := .error "coordinator can only create VM when connected to all other validators",
        requestedVMState := false, sigRequestSent := false,
        notifications := [], createVMCall := none } :=
  create_requires_all_connected
    ⟨3, 0, id, false, 0, 1, 2, fun _ _ _ _ => 9, fun _ => .ok ⟨1, 2, 3⟩, [], .ok ()⟩ rfl

/-- C3 counterexample.  N = 3, both followers respond, follower 2
refuses: the round errors with "some Validators refused to sign" but NO
`CreateNotification` is broadcast — `notifyFollowers` is only invoked on
the quorum-shortfall path, so the claim's "broadcasts a create-finalized
notification regardless of the round's outcome" is false on the code. -/
theorem create_refusal_sends_no_notification :
    createVMImpl ⟨3, 0, id, true, 0, 1, 2, fun _ _ _ _ => 9, fun _ => .ok ⟨1, 2, 3⟩,
        [⟨1, true, ⟨4, 5, 6⟩⟩, ⟨2, false, ⟨7, 8, 9⟩⟩], .ok ()⟩ =
      { result := .error "some Validators refused to sign",
        requestedVMState := true, sigRequestSent := true,
        notifications := [], createVMCall := none } := rfl

theorem createLoop_notifies_nothing (indexOf : Address → Nat)
    (sigs : List ValSignature) (rs : List CreateResponse) :
    (∃ e, createLoop indexOf sigs rs = .error e) ∨
      ∃ out, createLoop indexOf sigs rs = .ok out := by
  induction rs generalizing sigs with
  | nil => exact Or.inr ⟨sigs, rfl⟩
  | cons r rest ih =>
    by_cases hacc : r.accepted
    · simpa [createLoop, hacc] using ih _
    · have hf : r.accepted = false := by revert hacc; cases r.accepted <;> simp
      exact Or.inl ⟨"some Validators refused to sign", by simp [createLoop, hf]⟩

/-- C3 (amended).  `createVMImpl` broadcasts a
`CreateVMFinalizedValidatorNotification` only on the quorum-shortfall path
(connected, but fewer than N−1 responses), and then with `Approved =
false`; on every other path — including a follower refusing (the round
then errors with "some Validators refused to sign") and including success —
no create notification is broadcast at all. -/
theorem createLoop_refusal_errors (indexOf : Address → Nat) (rbad : CreateResponse)
    (hacc : rbad.accepted = false) :
    ∀ (sigs : List ValSignature) (rs : List CreateResponse), rbad ∈ rs →
      createLoop indexOf sigs rs = .error "some Validators refused to sign" := by
  intro sigs rs
  induction rs generalizing sigs with
  | nil => intro h; cases h
  | cons r rest ih =>
    intro hmem'
    by_cases hacc' : r.accepted
    · rcases List.mem_cons.mp hmem' with hq | hq
      · subst hq; rw [hacc] at hacc'; cases hacc'
      · simpa [createLoop, hacc'] using ih _ hq
    · simp only [createLoop, Bool.not_eq_true] at hacc' ⊢
      simp [hacc']

theorem create_notification_only_on_shortfall (env : CreateEnv) :
    (createVMImpl env).notifications
      = (if env.gotAll = true ∧ env.responses.length ≠ env.n - 1 then [false] else []) ∧
    (env.gotAll = true → env.responses.length = env.n - 1 →
      (∃ r ∈ env.responses, r.accepted = false) →
      ∀ coordSig, env.sign (env.createVMHash env.stateConfig env.vmId env.machineState 0)
          = .ok coordSig →
        (createVMImpl env).result = .error "some Validators refused to sign") := by
  constructor
  · by_cases hg : env.gotAll = true
    · by_cases hr : env.responses.length = env.n - 1
      · cases hsign : env.sign (env.createVMHash env.stateConfig env.vmId env.machineState 0) with
        | error e => simp [createVMImpl, hg, hr, hsign]
        | ok coordSig =>
          rcases createLoop_notifies_nothing env.indexOf
              ((List.replicate env.n zeroValSig).set (env.indexOf env.coordAddr) coordSig)
              env.responses with ⟨e, hloop⟩ | ⟨out, hloop⟩ <;>
            simp only [createVMImpl, hg, hr, hsign, Bool.not_true, if_neg, ne_eq,
              not_true_eq_false, Bool.false_eq_true, if_false, hloop] <;>
            simp [hg, hr]
      · simp [createVMImpl, hg, hr]
    · have hg' : env.gotAll = false := by revert hg; cases env.gotAll <;> simp
      simp [createVMImpl, hg', hg]
  · intro hg hr hbad coordSig hsign
    obtain ⟨rbad, hmem, hacc⟩ := hbad
    have hloop := createLoop_refusal_errors env.indexOf rbad hacc
      ((List.replicate env.n zeroValSig).set (env.indexOf env.coordAddr) coordSig)
      env.responses hmem
    simp [createVMImpl, hg, hr, hsign, hloop]

/-- Witness for `create_notification_only_on_shortfall`: both conjuncts at
the refusal scenario of the counterexample environment. -/
theorem create_notification_only_on_shortfall_witness :
    (createVMImpl ⟨3, 0, id, true, 0, 1, 2, fun _ _ _ _ => 9, fun _ => .ok ⟨1, 2, 3⟩,
        [⟨1, true, ⟨4, 5, 6⟩⟩, ⟨2, false, ⟨7, 8, 9⟩⟩], .ok ()⟩).result
      = .error "some Validators refused to sign" :=
  (create_notification_only_on_shortfall
      ⟨3, 0, id, true, 0, 1, 2, fun _ _ _ _ => 9, fun _ => .ok ⟨1, 2, 3⟩,
        [⟨1, true, ⟨4, 5, 6⟩⟩, ⟨2, false, ⟨7, 8, 9⟩⟩], .ok ()⟩).2
    rfl rfl ⟨⟨2, false, ⟨7, 8, 9⟩⟩, by simp, rfl⟩ ⟨1, 2, 3⟩ rfl

theorem buildRequestMessagesAux_exact (queued rest : List OffchainMessage)
    (pre : List OffchainMessage) (hq : queued = pre ++ rest) :
    buildRequestMessagesAux queued (rest.map OffchainMessage.message) pre.length
      = some (rest.map fun r => ⟨r.message, r.signature⟩) := by
  induction rest generalizing pre with
  | nil => rfl
  | cons r rs ih =>
    subst hq
    have hget : (pre ++ r :: rs).get? pre.length = some r := by
      rw [List.get?_append_right (Nat.le_refl _)]
      simp
    have hrec := ih (pre ++ [r]) (by simp)
    simp only [List.map] at hrec ⊢
    rw [buildRequestMessagesAux, hget]
    simp only [List.length_append, List.length_cons, List.length_nil] at hrec
    rw [show pre.length + 1 = pre.length + (0 + 1) by omega] at hrec
    simp only [Nat.zero_add] at hrec
    rw [hrec]

/-- C10.  The signed-messages build of
`_initiateUnanimousAssertionImpl` indexes `queuedMessages[i]` for each
index of the Bot's `NewMessages` with no bounds check.  Under the unstated
precondition that the Bot returned exactly the submitted messages in
submitted order (`NewMessages = queuedMessages.map Message`, which gives
`len(NewMessages) ≤ len(queuedMessages)`), the build is free of the
out-of-range panic and pairs each message with its originator's
signature. -/
theorem unan_signed_messages_safe (queued : List OffchainMessage) (newMessages : List Nat)
    (h : newMessages = queued.map OffchainMessage.message) :
    buildRequestMessages newMessages queued
      = some (queued.map fun r => ⟨r.message, r.signature⟩) ∧
    newMessages.length ≤ queued.length := by
  subst h
  refine ⟨?_, by simp⟩
  have := buildRequestMessagesAux_exact queued queued [] rfl
  simpa [buildRequestMessages] using this

/-- Witness for `unan_signed_messages_safe`. -/
theorem unan_signed_messages_safe_witness :
    buildRequestMessages [10, 20] [⟨10, 1⟩, ⟨20, 2⟩]
      = some [⟨10, 1⟩, ⟨20, 2⟩] ∧ ([10, 20] : List Nat).length ≤ 2 :=
  unan_signed_messages_safe [⟨10, 1⟩, ⟨20, 2⟩] [10, 20] rfl

theorem unanLoop_ok_of_valid (indexOf : Address → Nat) (unanHash : Hash)
    (sigs : List ValSignature) (raws : List (Option RawSignature))
    (rs : List UnanResponse)
    (h : ∀ r ∈ rs, r.accepted = true ∧ r.assertionHash = unanHash) :
    unanLoop indexOf unanHash sigs raws rs
      = .ok (setAll sigs (rs.map fun r => (indexOf r.address, valSigOfRaw r.signature)),
             setAll raws (rs.map fun r => (indexOf r.address, some r.signature))) := by
  induction rs generalizing sigs raws with
  | nil => rfl
  | cons r rest ih =>
    have hr := h r (by simp)
    rw [unanLoop]
    simp only [hr.1, hr.2, Bool.not_true, ne_eq, not_true_eq_false, Bool.false_eq_true,
      if_false, ite_false]
    rw [ih _ _ fun x hx => h x (List.mem_cons_of_mem _ hx)]
    rfl

theorem unanLoop_error_of_bad (indexOf : Address → Nat) (unanHash : Hash)
    (rbad : UnanResponse)
    (hbad : rbad.accepted = false ∨ rbad.assertionHash ≠ unanHash) :
    ∀ (sigs : List ValSignature) (raws : List (Option RawSignature))
      (rs : List UnanResponse), rbad ∈ rs →
      ∃ e, unanLoop indexOf unanHash sigs raws rs = .error e ∧
        (e = "some Validators refused to sign" ∨
         e = "some Validators signed the wrong assertion") := by
  intro sigs raws rs
  induction rs generalizing sigs raws with
  | nil => intro h; cases h
  | cons r rest ih =>
    intro hmem
    by_cases hacc : r.accepted = true
    · by_cases hh : r.assertionHash = unanHash
      · rcases List.mem_cons.mp hmem with hq | hq
        · subst hq
          rcases hbad with hb | hb
          · rw [hacc] at hb; cases hb
          · exact absurd hh hb
        · have := ih (sigs.set (indexOf r.address) (valSigOfRaw r.signature))
            (raws.set (indexOf r.address) (some r.signature)) hq
          simpa [unanLoop, hacc, hh] using this
      · exact ⟨"some Validators signed the wrong assertion",
          by simp [unanLoop, hacc, hh], Or.inr rfl⟩
    · have hf : r.accepted = false := by revert hacc; cases r.accepted <;> simp
      exact ⟨"some Validators refused to sign", by simp [unanLoop, hf], Or.inl rfl⟩

theorem createLoop_ok_of_accepted (indexOf : Address → Nat)
    (sigs : List ValSignature) (rs : List CreateResponse)
    (h : ∀ r ∈ rs, r.accepted = true) :
    createLoop indexOf sigs rs
      = .ok (setAll sigs (rs.map fun r => (indexOf r.address, valSigOfRaw r.signature))) := by
  induction rs generalizing sigs with
  | nil => rfl
  | cons r rest ih =>
    have hr := h r (by simp)
    rw [createLoop]
    simp only [hr, Bool.not_true, Bool.false_eq_true, if_false]
    rw [ih _ fun x hx => h x (List.mem_cons_of_mem _ hx)]
    rfl

theorem mem_of_nodup_length_eq (idxs : List Nat) (n : Nat) (hnd : idxs.Nodup)
    (hlt : ∀ i ∈ idxs, i < n) (hlen : idxs.length = n) :
    ∀ j, j < n → j ∈ idxs := by
  intro j hj
  have hsub : idxs.toFinset ⊆ Finset.range n := by
    intro x hx
    exact Finset.mem_range.mpr (hlt x (List.mem_toFinset.mp hx))
  have hcard : idxs.toFinset.card = n := by
    rw [List.toFinset_card_of_nodup hnd, hlen]
  have heq : idxs.toFinset = Finset.range n :=
    Finset.eq_of_subset_of_card_le hsub (by rw [hcard, Finset.card_range])
  have : j ∈ idxs.toFinset := heq ▸ Finset.mem_range.mpr hj
  exact List.mem_toFinset.mp this

/-- C5.  In a successful unanimous round: when the Bot's results carry
at least one outgoing message, the sequence number is overwritten to
`MAX_U64` before the unanimous-assertion digest is computed (the digest
hypothesis takes `(forceFinalSeq upd0).sequenceNum`), the round is
reported final, `Bot.CloseUnanimousAssertionRequest` is invoked and its
closure outcome is what the caller receives; when the sequence number
used is not `MAX_U64`, the round returns success with the channel kept
open (no close call). -/
theorem unan_outmsgs_force_final (env : UnanEnv) (q : List OffchainMessage)
    (req : UnanRequestData) (rm : List SignedMessage) (upd0 : UnanUpdateResults)
    (h : Hash) (sg : ValSignature)
    (h1 : env.botInitiate = .ok req)
    (h2 : buildRequestMessages req.newMessages q = some rm)
    (h3 : env.botResults = .ok upd0)
    (h4 : env.unanimousAssertHash (forceFinalSeq upd0).sequenceNum upd0.beforeHash
        upd0.timeBounds upd0.newInboxHash upd0.originalInboxHash upd0.assertion = .ok h)
    (h5 : env.sign h = .ok sg)
    (h6 : env.gatherResponses.length = env.n - 1)
    (h7 : ∀ r ∈ env.gatherResponses, r.accepted = true ∧ r.assertionHash = h)
    (h8 : env.confirmResult = .ok ()) :
    (0 < upd0.assertion.outMsgs.length →
      (initiateUnanimousAssertionImpl env q).map
          (fun co => (co.result, co.closeCalled, co.inner.result,
            co.inner.hashUsed, co.inner.seqUsed))
        = some (.ok env.closeResult, true, .ok true, some h, some MAX_U64)) ∧
    ((forceFinalSeq upd0).sequenceNum ≠ MAX_U64 →
      (initiateUnanimousAssertionImpl env q).map
          (fun co => (co.result, co.closeCalled, co.inner.result))
        = some (.ok true, false, .ok false)) := by
  have hforce : (forceFinalSeq upd0).beforeHash = upd0.beforeHash ∧
      (forceFinalSeq upd0).timeBounds = upd0.timeBounds ∧
      (forceFinalSeq upd0).newInboxHash = upd0.newInboxHash ∧
      (forceFinalSeq upd0).originalInboxHash = upd0.originalInboxHash ∧
      (forceFinalSeq upd0).assertion = upd0.assertion := by
    unfold forceFinalSeq
    split <;> simp
  have hloop := unanLoop_ok_of_valid env.indexOf h
    ((List.replicate env.n zeroValSig).set (env.indexOf env.coordAddr) sg)
    ((List.replicate env.n (none : Option RawSignature)).set (env.indexOf env.coordAddr)
      (some (rawOfValSig sg)))
    env.gatherResponses h7
  have himpl : unanImpl env q = some
      { result := .ok ((forceFinalSeq upd0).sequenceNum == MAX_U64),
        sigRequestSent := true,
        notifications := [⟨true, setAll ((List.replicate env.n (none : Option RawSignature)).set
          (env.indexOf env.coordAddr) (some (rawOfValSig sg)))
          (env.gatherResponses.map fun r => (env.indexOf r.address, some r.signature))⟩],
        confirmCall := some (req, setAll ((List.replicate env.n zeroValSig).set
          (env.indexOf env.coordAddr) sg)
          (env.gatherResponses.map fun r => (env.indexOf r.address, valSigOfRaw r.signature))),
        hashUsed := some h, seqUsed := some (forceFinalSeq upd0).sequenceNum } := by
    simp only [unanImpl, h1, h2, h3, hforce.1, hforce.2.1, hforce.2.2.1,
      hforce.2.2.2.1, hforce.2.2.2.2, h4, h5, h6, ne_eq, eq_self_iff_true,
      not_true_eq_false, Bool.false_eq_true, if_false, ite_false, hloop, h8]
  constructor
  · intro hout
    have hseq : (forceFinalSeq upd0).sequenceNum = MAX_U64 := by
      unfold forceFinalSeq
      rw [if_pos hout]
    simp [initiateUnanimousAssertionImpl, himpl, hseq]
  · intro hne
    have hbeq : ((forceFinalSeq upd0).sequenceNum == MAX_U64) = false := by
      simpa using hne
    simp [initiateUnanimousAssertionImpl, himpl, hbeq]

/-- Witness for `unan_outmsgs_force_final`: N = 3, two valid follower
responses, one outgoing message forcing finalization. -/
theorem unan_outmsgs_force_final_witness :
    (initiateUnanimousAssertionImpl
        ⟨3, 0, id, .ok ⟨[], 1, 2, 3, 4⟩, fun _ => 11, .ok ⟨3, 1, 4, 6, 7, ⟨8, [5], 0⟩⟩,
          fun _ _ _ _ _ _ => .ok 42, fun _ => .ok ⟨1, 2, 3⟩,
          [⟨1, true, 42, ⟨4, 5, 6⟩⟩, ⟨2, true, 42, ⟨7, 8, 9⟩⟩], .ok (), true⟩ []).map
        (fun co => (co.result, co.closeCalled, co.inner.result,
          co.inner.hashUsed, co.inner.seqUsed))
      = some (.ok true, true, .ok true, some 42, some MAX_U64) :=
  (unan_outmsgs_force_final
      ⟨3, 0, id, .ok ⟨[], 1, 2, 3, 4⟩, fun _ => 11, .ok ⟨3, 1, 4, 6, 7, ⟨8, [5], 0⟩⟩,
        fun _ _ _ _ _ _ => .ok 42, fun _ => .ok ⟨1, 2, 3⟩,
        [⟨1, true, 42, ⟨4, 5, 6⟩⟩, ⟨2, true, 42, ⟨7, 8, 9⟩⟩], .ok (), true⟩ []
      ⟨[], 1, 2, 3, 4⟩ [] ⟨3, 1, 4, 6, 7, ⟨8, [5], 0⟩⟩ 42 ⟨1, 2, 3⟩
      rfl rfl rfl rfl rfl rfl (by decide) rfl).1 (by decide)

theorem forceFinalSeq_fields (u : UnanUpdateResults) :
    (forceFinalSeq u).beforeHash = u.beforeHash ∧
    (forceFinalSeq u).timeBounds = u.timeBounds ∧
    (forceFinalSeq u).newInboxHash = u.newInboxHash ∧
    (forceFinalSeq u).originalInboxHash = u.originalInboxHash ∧
    (forceFinalSeq u).assertion = u.assertion := by
  unfold forceFinalSeq
  split <;> simp

/-- C4 counterexample.  The Bot surfaces an error on its error channel
before producing the round request, with an empty drained batch: the error
is forwarded, but NO follower notification is broadcast (the claim says
the followers are notified with `Accepted = false`), and a subsequent
`HasMessages` returns false (the claim says true). -/
theorem unan_bot_error_before_request_counterexample :
    (initiateUnanimousAssertionImpl
        ⟨3, 0, id, .error "bot failed", fun _ => 11, .error "unused",
          fun _ _ _ _ _ _ => .ok 42, fun _ => .ok ⟨1, 2, 3⟩, [], .ok (), true⟩ []).map
        (fun co => (co.result, co.inner.notifications, co.inner.sigRequestSent,
          (queueStep co.finalQueue .has).2))
      = some (.error "bot failed", [], false, some (.hasMsgs false)) := rfl

/-- C4 (amended).  If a unanimous round fails before confirmation then
the error is forwarded to the caller and the exact batch drained at the
start of the round is returned to the queue (so a subsequent `HasMessages`
returns true whenever that batch was nonempty); the followers are
notified with `Accepted = false` on every such failure path EXCEPT when
the Bot's error arrives before it produces the round request, in which
case nothing has been broadcast and no notification is sent. -/
theorem unan_failure_paths :
    (∀ (env : UnanEnv) (q : List OffchainMessage) (e : String),
      env.botInitiate = .error e →
      (initiateUnanimousAssertionImpl env q).map
          (fun co => (co.result, co.inner.notifications, co.inner.sigRequestSent,
            co.finalQueue))
        = some (.error e, [], false, q)) ∧
    (∀ (env : UnanEnv) (q : List OffchainMessage) (req : UnanRequestData)
      (rm : List SignedMessage) (e : String),
      env.botInitiate = .ok req →
      buildRequestMessages req.newMessages q = some rm →
      env.botResults = .error e →
      (initiateUnanimousAssertionImpl env q).map
          (fun co => (co.result, co.inner.notifications, co.finalQueue))
        = some (.error e, [⟨false, []⟩], q)) ∧
    (∀ (env : UnanEnv) (q : List OffchainMessage) (req : UnanRequestData)
      (rm : List SignedMessage) (upd0 : UnanUpdateResults) (h : Hash) (sg : ValSignature),
      env.botInitiate = .ok req →
      buildRequestMessages req.newMessages q = some rm →
      env.botResults = .ok upd0 →
      env.unanimousAssertHash (forceFinalSeq upd0).sequenceNum upd0.beforeHash
        upd0.timeBounds upd0.newInboxHash upd0.originalInboxHash upd0.assertion = .ok h →
      env.sign h = .ok sg →
      env.gatherResponses.length ≠ env.n - 1 →
      (initiateUnanimousAssertionImpl env q).map
          (fun co => (co.result, co.inner.notifications, co.finalQueue))
        = some (.error "some Validators didn't respond", [⟨false, []⟩], q)) ∧
    (∀ (env : UnanEnv) (q : List OffchainMessage) (req : UnanRequestData)
      (rm : List SignedMessage) (upd0 : UnanUpdateResults) (h : Hash) (sg : ValSignature)
      (rbad : UnanResponse),
      env.botInitiate = .ok req →
      buildRequestMessages req.newMessages q = some rm →
      env.botResults = .ok upd0 →
      env.unanimousAssertHash (forceFinalSeq upd0).sequenceNum upd0.beforeHash
        upd0.timeBounds upd0.newInboxHash upd0.originalInboxHash upd0.assertion = .ok h →
      env.sign h = .ok sg →
      env.gatherResponses.length = env.n - 1 →
      rbad ∈ env.gatherResponses →
      (rbad.accepted = false ∨ rbad.assertionHash ≠ h) →
      ∃ e, (initiateUnanimousAssertionImpl env q).map
          (fun co => (co.result, co.inner.notifications, co.finalQueue))
        = some (.error e, [⟨false, []⟩], q) ∧
        (e = "some Validators refused to sign" ∨
         e = "some Validators signed the wrong assertion")) ∧
    (∀ q : List OffchainMessage, q ≠ [] →
      (queueStep q .has).2 = some (.hasMsgs true)) := by
  refine ⟨?_, ?_, ?_, ?_, ?_⟩
  · intro env q e h1
    simp [initiateUnanimousAssertionImpl, unanImpl, h1, queueStep]
  · intro env q req rm e h1 h2 h3
    simp [initiateUnanimousAssertionImpl, unanImpl, h1, h2, h3, queueStep]
  · intro env q req rm upd0 h sg h1 h2 h3 h4 h5 h6
    have hf := forceFinalSeq_fields upd0
    simp only [initiateUnanimousAssertionImpl, unanImpl, h1, h2, h3,
      hf.1, hf.2.1, hf.2.2.1, hf.2.2.2.1, hf.2.2.2.2, h4, h5, h6, ne_eq,
      not_false_eq_true, if_true, ite_true, queueStep]
    simp [queueStep]
  · intro env q req rm upd0 h sg rbad h1 h2 h3 h4 h5 h6 hmem hbad
    obtain ⟨e, hloop, he⟩ := unanLoop_error_of_bad env.indexOf h rbad hbad
      ((List.replicate env.n zeroValSig).set (env.indexOf env.coordAddr) sg)
      ((List.replicate env.n (none : Option RawSignature)).set (env.indexOf env.coordAddr)
        (some (rawOfValSig sg)))
      env.gatherResponses hmem
    refine ⟨e, ?_, he⟩
    have hf := forceFinalSeq_fields upd0
    simp only [initiateUnanimousAssertionImpl, unanImpl, h1, h2, h3,
      hf.1, hf.2.1, hf.2.2.1, hf.2.2.2.1, hf.2.2.2.2, h4, h5, h6, ne_eq,
      eq_self_iff_true, not_true_eq_false, Bool.false_eq_true, if_false,
      ite_false, hloop]
    simp [queueStep]
  · intro q hq
    cases q with
    | nil => cases hq rfl
    | cons a as => simp [queueStep]

/-- Witness for `unan_failure_paths`: the pre-request Bot-error path with a
nonempty batch, and the nonempty-batch `HasMessages` fact. -/
theorem unan_failure_paths_witness :
    (initiateUnanimousAssertionImpl
        ⟨3, 0, id, .error "boom", fun _ => 11, .error "unused",
          fun _ _ _ _ _ _ => .ok 42, fun _ => .ok ⟨1, 2, 3⟩, [], .ok (), true⟩
        [⟨1, 2⟩]).map
        (fun co => (co.result, co.inner.notifications, co.inner.sigRequestSent,
          co.finalQueue))
      = some (.error "boom", [], false, [⟨1, 2⟩]) ∧
    (queueStep [(⟨1, 2⟩ : OffchainMessage)] .has).2 = some (.hasMsgs true) :=
  ⟨unan_failure_paths.1
      ⟨3, 0, id, .error "boom", fun _ => 11, .error "unused",
        fun _ _ _ _ _ _ => .ok 42, fun _ => .ok ⟨1, 2, 3⟩, [], .ok (), true⟩
      [⟨1, 2⟩] "boom" rfl,
   unan_failure_paths.2.2.2.2 [⟨1, 2⟩] (by decide)⟩

theorem assembled_vector_spec (n : Nat) (coordIdx : Nat) (coordSig : ValSignature)
    (pairs : List (Nat × ValSignature))
    (hnd : (coordIdx :: pairs.map Prod.fst).Nodup)
    (hlt : ∀ i ∈ coordIdx :: pairs.map Prod.fst, i < n)
    (hlen : pairs.length = n - 1) :
    (setAll ((List.replicate n zeroValSig).set coordIdx coordSig) pairs).length = n ∧
    (setAll ((List.replicate n zeroValSig).set coordIdx coordSig) pairs).get? coordIdx
      = some coordSig ∧
    (∀ p ∈ pairs,
      (setAll ((List.replicate n zeroValSig).set coordIdx coordSig) pairs).get? p.1
        = some p.2) ∧
    (∀ j, j < n → j = coordIdx ∨ j ∈ pairs.map Prod.fst) := by
  have hnd' := List.nodup_cons.mp hnd
  have hc : coordIdx < n := hlt coordIdx (by simp)
  have hlen0 : ((List.replicate n zeroValSig).set coordIdx coordSig).length = n := by
    simp
  refine ⟨?_, ?_, ?_, ?_⟩
  · rw [setAll_length, hlen0]
  · rw [setAll_get_not_mem _ _ _ hnd'.1]
    rw [List.get?_set_eq_of_lt _ (by simpa using hc)]
  · intro p hp
    exact setAll_get_mem _ _ _ hnd'.2 hp
      (by rw [hlen0]; exact hlt p.1 (List.mem_cons_of_mem _ (List.mem_map_of_mem Prod.fst hp)))
  · intro j hj
    have hmem := mem_of_nodup_length_eq (coordIdx :: pairs.map Prod.fst) n hnd hlt
      (by simp [hlen]; omega) j hj
    simpa using hmem

/-- C1.  Whenever a round is finalized — `Bot.CreateVM` called by
`createVMImpl`, or `Bot.ConfirmOffchainUnanimousAssertion` called by
`_initiateUnanimousAssertionImpl` — with exactly N−1 follower responses,
all accepted (and, for unanimous, all hash-matching, as the code requires
to reach the confirm), and with validator indices that are pairwise
distinct and in range (the data model's index assignment), the assembled
vector has length exactly N, carries the coordinator's signature at the
coordinator's own index, carries each responder's signature at that
responder's index, and every one of the N slots is the coordinator's or
some responder's — never fewer than N signatures. -/
theorem finalized_signature_vector_complete :
    (∀ (env : CreateEnv) (coordSig : ValSignature),
      env.gotAll = true →
      env.responses.length = env.n - 1 →
      (∀ r ∈ env.responses, r.accepted = true) →
      env.sign (env.createVMHash env.stateConfig env.vmId env.machineState 0)
        = .ok coordSig →
      (env.indexOf env.coordAddr :: env.responses.map fun r => env.indexOf r.address).Nodup →
      (∀ i ∈ env.indexOf env.coordAddr :: env.responses.map fun r => env.indexOf r.address,
        i < env.n) →
      ∃ sigs, (createVMImpl env).createVMCall = some sigs ∧
        sigs.length = env.n ∧
        sigs.get? (env.indexOf env.coordAddr) = some coordSig ∧
        (∀ r ∈ env.responses,
          sigs.get? (env.indexOf r.address) = some (valSigOfRaw r.signature)) ∧
        (∀ j, j < env.n → j = env.indexOf env.coordAddr ∨
          ∃ r ∈ env.responses, env.indexOf r.address = j)) ∧
    (∀ (env : UnanEnv) (q : List OffchainMessage) (req : UnanRequestData)
      (rm : List SignedMessage) (upd0 : UnanUpdateResults) (h : Hash) (sg : ValSignature),
      env.botInitiate = .ok req →
      buildRequestMessages req.newMessages q = some rm →
      env.botResults = .ok upd0 →
      env.unanimousAssertHash (forceFinalSeq upd0).sequenceNum upd0.beforeHash
        upd0.timeBounds upd0.newInboxHash upd0.originalInboxHash upd0.assertion = .ok h →
      env.sign h = .ok sg →
      env.gatherResponses.length = env.n - 1 →
      (∀ r ∈ env.gatherResponses, r.accepted = true ∧ r.assertionHash = h) →
      (env.indexOf env.coordAddr ::
        env.gatherResponses.map fun r => env.indexOf r.address).Nodup →
      (∀ i ∈ env.indexOf env.coordAddr ::
          env.gatherResponses.map fun r => env.indexOf r.address, i < env.n) →
      ∃ sigs, (unanImpl env q).map (fun out => out.confirmCall) = some (some (req, sigs)) ∧
        sigs.length = env.n ∧
        sigs.get? (env.indexOf env.coordAddr) = some sg ∧
        (∀ r ∈ env.gatherResponses,
          sigs.get? (env.indexOf r.address) = some (valSigOfRaw r.signature)) ∧
        (∀ j, j < env.n → j = env.indexOf env.coordAddr ∨
          ∃ r ∈ env.gatherResponses, env.indexOf r.address = j)) := by
  constructor
  · intro env coordSig hg hr hacc hsign hnd hlt
    have hpairs : ((env.responses.map fun r =>
        (env.indexOf r.address, valSigOfRaw r.signature)).map Prod.fst)
        = env.responses.map fun r => env.indexOf r.address := by
      simp [List.map_map, Function.comp]
    have hspec := assembled_vector_spec env.n (env.indexOf env.coordAddr) coordSig
      (env.responses.map fun r => (env.indexOf r.address, valSigOfRaw r.signature))
      (by rw [hpairs]; exact hnd) (by rw [hpairs]; exact hlt) (by simpa using hr)
    have hloop := createLoop_ok_of_accepted env.indexOf
      ((List.replicate env.n zeroValSig).set (env.indexOf env.coordAddr) coordSig)
      env.responses hacc
    refine ⟨_, ?_, hspec.1, hspec.2.1, ?_, ?_⟩
    · simp only [createVMImpl, hg, hr, hsign, Bool.not_true, ne_eq, eq_self_iff_true,
        not_true_eq_false, Bool.false_eq_true, if_false, ite_false, hloop]
    · intro r hrm
      exact hspec.2.2.1 (env.indexOf r.address, valSigOfRaw r.signature)
        (List.mem_map_of_mem _ hrm)
    · intro j hj
      rcases hspec.2.2.2 j hj with hco | hmemj
      · exact Or.inl hco
      · rw [hpairs] at hmemj
        obtain ⟨r, hrmem, hrj⟩ := List.mem_map.mp hmemj
        exact Or.inr ⟨r, hrmem, hrj⟩
  · intro env q req rm upd0 h sg h1 h2 h3 h4 h5 h6 h7 hnd hlt
    have hpairs : ((env.gatherResponses.map fun r =>
        (env.indexOf r.address, valSigOfRaw r.signature)).map Prod.fst)
        = env.gatherResponses.map fun r => env.indexOf r.address := by
      simp [List.map_map, Function.comp]
    have hspec := assembled_vector_spec env.n (env.indexOf env.coordAddr) sg
      (env.gatherResponses.map fun r => (env.indexOf r.address, valSigOfRaw r.signature))
      (by rw [hpairs]; exact hnd) (by rw [hpairs]; exact hlt) (by simpa using h6)
    have hloop := unanLoop_ok_of_valid env.indexOf h
      ((List.replicate env.n zeroValSig).set (env.indexOf env.coordAddr) sg)
      ((List.replicate env.n (none : Option RawSignature)).set (env.indexOf env.coordAddr)
        (some (rawOfValSig sg)))
      env.gatherResponses h7
    have hf := forceFinalSeq_fields upd0
    refine ⟨_, ?_, hspec.1, hspec.2.1, ?_, ?_⟩
    · simp only [unanImpl, h1, h2, h3, hf.1, hf.2.1, hf.2.2.1, hf.2.2.2.1, hf.2.2.2.2,
        h4, h5, h6, ne_eq, eq_self_iff_true, not_true_eq_false, Bool.false_eq_true,
        if_false, ite_false, hloop]
      all_goals cases env.confirmResult <;> rfl
    · intro r hrm
      exact hspec.2.2.1 (env.indexOf r.address, valSigOfRaw r.signature)
        (List.mem_map_of_mem _ hrm)
    · intro j hj
      rcases hspec.2.2.2 j hj with hco | hmemj
      · exact Or.inl hco
      · rw [hpairs] at hmemj
        obtain ⟨r, hrmem, hrj⟩ := List.mem_map.mp hmemj
        exact Or.inr ⟨r, hrmem, hrj⟩

/-- Witness for `finalized_signature_vector_complete`: both rounds at
N = 3, coordinator index 0, responders at indices 1 and 2. -/
theorem finalized_signature_vector_complete_witness :
    (∃ sigs, (createVMImpl ⟨3, 0, id, true, 0, 1, 2, fun _ _ _ _ => 9,
        fun _ => .ok ⟨1, 2, 3⟩,
        [⟨1, true, ⟨4, 5, 6⟩⟩, ⟨2, true, ⟨7, 8, 9⟩⟩], .ok ()⟩).createVMCall = some sigs ∧
      sigs.length = 3 ∧
      sigs.get? 0 = some ⟨1, 2, 3⟩ ∧
      (∀ r ∈ [(⟨1, true, ⟨4, 5, 6⟩⟩ : CreateResponse), ⟨2, true, ⟨7, 8, 9⟩⟩],
        sigs.get? r.address = some (valSigOfRaw r.signature)) ∧
      (∀ j, j < 3 → j = 0 ∨
        ∃ r ∈ [(⟨1, true, ⟨4, 5, 6⟩⟩ : CreateResponse), ⟨2, true, ⟨7, 8, 9⟩⟩],
          r.address = j)) :=
  (finalized_signature_vector_complete.1
    ⟨3, 0, id, true, 0, 1, 2, fun _ _ _ _ => 9, fun _ => .ok ⟨1, 2, 3⟩,
      [⟨1, true, ⟨4, 5, 6⟩⟩, ⟨2, true, ⟨7, 8, 9⟩⟩], .ok ()⟩ ⟨1, 2, 3⟩
    rfl rfl (by decide) rfl (by decide) (by decide))

/-- C7.  First part: the gather loop returns exactly when either the
quota of N−1 responses has been collected or the single-shot timer has
fired — whenever it returns `result`, a positive number `k` of select
arrivals were consumed, `result` is precisely the responses among those
arrivals in order ("every response received up to that point"), and either
`result` holds exactly N−1 responses with the timer never having fired, or
the last consumed arrival is the first and only timer expiry (a timeout is
not retried) and fewer than N−1 responses were collected.  Second part:
when the returned list has fewer than N−1 entries, the calling unanimous
round aborts with the error "some Validators didn't respond". -/
theorem gather_returns_on_quota_or_timeout :
    (∀ (α : Type) (quota : Nat) (events : List (GatherEvent α)) (result : List α),
      0 < quota → gatherLoop quota [] events = some result →
      ∃ k, 0 < k ∧ k ≤ events.length ∧
        result = responsesOf (events.take k) ∧
        ((result.length = quota ∧ GatherEvent.timerFire ∉ events.take k) ∨
         ((events.take k).getLast? = some .timerFire ∧
          GatherEvent.timerFire ∉ (events.take k).dropLast ∧
          result.length < quota))) ∧
    (∀ (env : UnanEnv) (q : List OffchainMessage) (req : UnanRequestData)
      (rm : List SignedMessage) (upd0 : UnanUpdateResults) (h : Hash) (sg : ValSignature),
      env.botInitiate = .ok req →
      buildRequestMessages req.newMessages q = some rm →
      env.botResults = .ok upd0 →
      env.unanimousAssertHash (forceFinalSeq upd0).sequenceNum upd0.beforeHash
        upd0.timeBounds upd0.newInboxHash upd0.originalInboxHash upd0.assertion = .ok h →
      env.sign h = .ok sg →
      env.gatherResponses.length < env.n - 1 →
      (initiateUnanimousAssertionImpl env q).map (fun co => co.result)
        = some (.error "some Validators didn't respond")) := by
  constructor
  · intro α quota events result hq h
    have := gatherLoop_spec_aux quota events [] result (by simpa using hq) h
    simpa using this
  · intro env q req rm upd0 h sg h1 h2 h3 h4 h5 hshort
    have h6 : env.gatherResponses.length ≠ env.n - 1 := Nat.ne_of_lt hshort
    have hf := forceFinalSeq_fields upd0
    simp only [initiateUnanimousAssertionImpl, unanImpl, h1, h2, h3,
      hf.1, hf.2.1, hf.2.2.1, hf.2.2.2.1, hf.2.2.2.2, h4, h5, h6, ne_eq,
      not_false_eq_true, if_true, ite_true]
    rfl

/-- Witness for `gather_returns_on_quota_or_timeout`: quota 2, one
response then the timer; and a unanimous round with one of two expected
responses missing. -/
theorem gather_returns_on_quota_or_timeout_witness :
    (∃ k, 0 < k ∧ k ≤ 2 ∧
      ([5] : List Nat) = responsesOf ([GatherEvent.response 5, GatherEvent.timerFire].take k) ∧
      ((([5] : List Nat).length = 2 ∧
        GatherEvent.timerFire ∉ [GatherEvent.response 5, GatherEvent.timerFire].take k) ∨
       (([GatherEvent.response 5, GatherEvent.timerFire].take k).getLast? = some .timerFire ∧
        GatherEvent.timerFire ∉ ([GatherEvent.response 5, GatherEvent.timerFire].take k).dropLast ∧
        ([5] : List Nat).length < 2))) ∧
    (initiateUnanimousAssertionImpl
        ⟨3, 0, id, .ok ⟨[], 1, 2, 3, 4⟩, fun _ => 11, .ok ⟨3, 1, 4, 6, 7, ⟨8, [], 0⟩⟩,
          fun _ _ _ _ _ _ => .ok 42, fun _ => .ok ⟨1, 2, 3⟩,
          [⟨1, true, 42, ⟨4, 5, 6⟩⟩], .ok (), true⟩ []).map (fun co => co.result)
      = some (.error "some Validators didn't respond") :=
  ⟨gather_returns_on_quota_or_timeout.1 Nat 2
      [GatherEvent.response 5, GatherEvent.timerFire] [5] (by decide) rfl,
   gather_returns_on_quota_or_timeout.2
      ⟨3, 0, id, .ok ⟨[], 1, 2, 3, 4⟩, fun _ => 11, .ok ⟨3, 1, 4, 6, 7, ⟨8, [], 0⟩⟩,
        fun _ _ _ _ _ _ => .ok 42, fun _ => .ok ⟨1, 2, 3⟩,
        [⟨1, true, 42, ⟨4, 5, 6⟩⟩], .ok (), true⟩ []
      ⟨[], 1, 2, 3, 4⟩ [] ⟨3, 1, 4, 6, 7, ⟨8, [], 0⟩⟩ 42 ⟨1, 2, 3⟩
      rfl rfl rfl rfl rfl (by decide)⟩

end Arbi
